import Mathlib

/-
Verification of the local-business ingestion pipeline (src/ingest_google.py)
against its natural-language specification.

The Python source is shallowly embedded: JSON dictionaries become structures
with Option-valued fields, Python truthiness is modelled explicitly
(strTruthy, numTruthy, listTruthy), network I/O is abstracted as oracle
functions supplied by a World value, raising code returns Except, and the
side effects that matter to the specification (provider calls, persisted
rows, the photo-cache file system) are tracked in an explicit state.
-/

namespace Ingestor

/-- Python truthiness of an optional string: None and the empty string are
falsy, every other string is truthy. -/
def strTruthy : Option String → Bool
  | none => false
  | some s => !(s == "")

/-- Python truthiness of an optional number: None and 0 are falsy. -/
def numTruthy : Option Rat → Bool
  | none => false
  | some q => !(q == 0)

/-- Python truthiness of an optional list: None and the empty list are falsy. -/
def listTruthy {α : Type} : Option (List α) → Bool
  | some (_ :: _) => true
  | _ => false

/-- Python "a or b" on optional strings: a if a is truthy, else b. -/
def pyOrStr (a b : Option String) : Option String :=
  if strTruthy a then a else b

/-- Python "a or b" on optional numbers: a if a is truthy, else b. -/
def pyOrNum (a b : Option Rat) : Option Rat :=
  if numTruthy a then a else b

/-- Python "x or NA-sentinel": the string x if truthy, else the sentinel.
This models the expressions phone or "N/A" and website or "N/A" in main. -/
def pyOrNA (a : Option String) : String :=
  if strTruthy a then a.getD "" else "N/A"

/-- The record assembled by get_yelp_business from the Yelp search hit and the
Yelp details response (src lines 153-164).  The two HTTP calls, the JSON
decoding and the exception handling of get_yelp_business are abstracted into
an oracle that yields this assembled record, or none on not-found or any
swallowed error. -/
structure YelpBiz where
  id : String
  name : Option String
  url : Option String
  display_phone : Option String
  price : Option String
  location_address1 : Option String
  external_website : Option String
deriving DecidableEq, Repr

/-- The website merge of main (src lines 332, 338-342): start from the detail
value; when a Yelp record is present and the detail value is falsy or the
"N/A" sentinel, replace it by Yelp's external_website or url. -/
def mergeWebsiteOpt (detailWebsite : Option String) (yelp : Option YelpBiz) :
    Option String :=
  match yelp with
  | none => detailWebsite
  | some y =>
      if strTruthy detailWebsite = false ∨ detailWebsite = some "N/A" then
        pyOrStr y.external_website y.url
      else detailWebsite

/-- The final merged website string of main (src line 352): the merged
optional value, with the "N/A" sentinel for a falsy result (never null). -/
def mergedWebsite (detailWebsite : Option String) (yelp : Option YelpBiz) :
    String :=
  pyOrNA (mergeWebsiteOpt detailWebsite yelp)

/-- The phone merge of main (src lines 331, 336-337): detail value, replaced
by Yelp's display_phone when the detail value is falsy or the sentinel. -/
def mergePhoneOpt (detailPhone : Option String) (yelp : Option YelpBiz) :
    Option String :=
  match yelp with
  | none => detailPhone
  | some y =>
      if strTruthy detailPhone = false ∨ detailPhone = some "N/A" then
        y.display_phone
      else detailPhone

/-- The final merged phone string of main (src line 351). -/
def mergedPhone (detailPhone : Option String) (yelp : Option YelpBiz) :
    String :=
  pyOrNA (mergePhoneOpt detailPhone yelp)

/-- The address merge of main (src lines 333, 343-344): detail formatted
address or the bare result's vicinity; if still falsy and a Yelp record is
present, Yelp's address1. -/
def mergedAddress (detailAddress vicinity : Option String)
    (yelp : Option YelpBiz) : Option String :=
  let address := pyOrStr detailAddress vicinity
  match yelp with
  | none => address
  | some y => if strTruthy address = false then y.location_address1 else address

/-- One review object inside a place-details response. -/
structure ReviewSrc where
  author_name : Option String
  rating : Option Rat
  text : Option String
  relative_time_description : Option String
deriving DecidableEq, Repr

/-- One row inserted into the google_reviews table. -/
structure ReviewRow where
  business_id : Nat
  author_name : Option String
  rating : Option Rat
  text : Option String
  relative_time : Option String
deriving DecidableEq, Repr

/-- The row built from one review by insert_reviews (src lines 255-267). -/
def reviewRow (business_id : Nat) (r : ReviewSrc) : ReviewRow :=
  { business_id := business_id
    author_name := r.author_name
    rating := r.rating
    text := r.text
    relative_time := r.relative_time_description }

/-- insert_reviews (src lines 250-267): returns the list of rows inserted, in
insertion order.  A falsy argument (None or empty list) inserts nothing;
otherwise the loop runs over reviews[:5]. -/
def insert_reviews (business_id : Nat) (reviews : Option (List ReviewSrc)) :
    List ReviewRow :=
  if listTruthy reviews = false then []
  else ((reviews.getD []).take 5).map (reviewRow business_id)

/-- One photo object (a dict carrying a photo_reference key). -/
structure PhotoD where
  photo_reference : Option String
deriving DecidableEq, Repr

/-- The "result" object of a place-details response, with exactly the fields
requested by place_details (src lines 103-107).  A missing key is none;
editorial_summary.overview and opening_hours are flattened/kept opaque. -/
structure Detail where
  formatted_address : Option String
  formatted_phone_number : Option String
  website : Option String
  types : Option (List String)
  rating : Option Rat
  user_ratings_total : Option Rat
  reviews : Option (List ReviewSrc)
  opening_hours : Option String
  photos : Option (List PhotoD)
  price_level : Option Rat
  editorial_summary_overview : Option String
  google_maps_uri : Option String
deriving DecidableEq, Repr

/-- The empty detail dict returned after the retry budget is exhausted
(src line 121). -/
def Detail.empty : Detail :=
  { formatted_address := none
    formatted_phone_number := none
    website := none
    types := none
    rating := none
    user_ratings_total := none
    reviews := none
    opening_hours := none
    photos := none
    price_level := none
    editorial_summary_overview := none
    google_maps_uri := none }

/-- Python truthiness of the result dict (src line 115, "if result:"): the
dict is truthy exactly when at least one of the requested fields is present. -/
def Detail.isNonEmpty (d : Detail) : Bool :=
  d.formatted_address.isSome || d.formatted_phone_number.isSome ||
  d.website.isSome || d.types.isSome || d.rating.isSome ||
  d.user_ratings_total.isSome || d.reviews.isSome ||
  d.opening_hours.isSome || d.photos.isSome || d.price_level.isSome ||
  d.editorial_summary_overview.isSome || d.google_maps_uri.isSome

instance : DecidableEq (Except Unit Detail)
  | Except.ok x, Except.ok y =>
      if h : x = y then isTrue (congrArg Except.ok h)
      else isFalse fun hh => h (Except.ok.inj hh)
  | Except.error x, Except.error y =>
      if h : x = y then isTrue (congrArg Except.error h)
      else isFalse fun hh => h (Except.error.inj hh)
  | Except.ok _, Except.error _ => isFalse fun hh => Except.noConfusion hh
  | Except.error _, Except.ok _ => isFalse fun hh => Except.noConfusion hh

/-- Events of one place_details call: an attempt (with its outcome) or a
sleep of a given duration in seconds. -/
inductive DEvent where
  | att (i : Nat) (outcome : Except Unit Detail)
  | sleep (seconds : Rat)
deriving DecidableEq, Repr

/-- An attempt outcome that makes place_details retry: an exception
(src line 118) or a response whose result dict is empty (src line 115). -/
def isFailedOutcome : Except Unit Detail → Bool
  | Except.ok d => !d.isNonEmpty
  | Except.error _ => true

/-- The sleep executed after a failed attempt: time.sleep(1.5) after an empty
result (src line 117), time.sleep(2) after an exception (src line 120). -/
def sleepFor : Except Unit Detail → Rat
  | Except.ok _ => 3 / 2
  | Except.error _ => 2

/-- The retry loop of place_details (src lines 110-121), one recursion step
per loop iteration; the fetch oracle gives the outcome of attempt i. -/
def place_details_go (fetch : Nat → Except Unit Detail) :
    Nat → Nat → Detail × List DEvent
  | _, 0 => (Detail.empty, [])
  | i, fuel + 1 =>
      match fetch i with
      | Except.ok result =>
          if result.isNonEmpty then (result, [DEvent.att i (Except.ok result)])
          else
            let rest := place_details_go fetch (i + 1) fuel
            (rest.1,
             DEvent.att i (Except.ok result) :: DEvent.sleep (3 / 2) :: rest.2)
      | Except.error e =>
          let rest := place_details_go fetch (i + 1) fuel
          (rest.1, DEvent.att i (Except.error e) :: DEvent.sleep 2 :: rest.2)

/-- place_details (src lines 97-121) with its hard-wired retry budget of 3:
the returned detail together with the trace of attempts and sleeps. -/
def place_details (fetch : Nat → Except Unit Detail) : Detail × List DEvent :=
  place_details_go fetch 0 3

/-- Number of attempt events in a place_details trace. -/
def attCount (trace : List DEvent) : Nat :=
  (trace.filterMap fun e =>
    match e with
    | DEvent.att i _ => some i
    | _ => none).length

/-- Attempt number i occurs in the trace. -/
def hasAtt (trace : List DEvent) (i : Nat) : Prop :=
  ∃ o, DEvent.att i o ∈ trace

/-- Checks the gaps of a place_details trace: every attempt that is followed
by anything is followed first by exactly one sleep whose duration is the
fixed delay for that attempt's outcome, and the next attempt (if any) has
the next index. -/
def gapsOk : List DEvent → Bool
  | [] => true
  | [DEvent.att _ _] => true
  | DEvent.att i o :: DEvent.sleep c :: rest =>
      (c == sleepFor o) &&
      (match rest with
       | DEvent.att j _ :: _ => j == i + 1
       | [] => true
       | _ => false) &&
      gapsOk rest
  | _ => false

/-- Outcome of the HTTP photo fetch in download_photo: a response with a
status code, or a transport-level exception raised by the request. -/
inductive PhotoOutcome where
  | status (code : Nat)
  | transportError
deriving DecidableEq, Repr

/-- The shared placeholder asset path (src lines 182, 199). -/
def placeholderPath : String := "public/images/placeholder.jpg"

/-- download_photo (src lines 173-199).  The file system is the list of
existing paths; the fetch oracle gives the outcome of the photo request.
Returns (path, file system afterwards, whether a network call was made),
or an error when the photo request raises (the source has no exception
handler, so a transport error propagates to the caller). -/
def download_photo (fetch : String → PhotoOutcome) (fs : List String)
    (photo_ref : Option String) (place_id : String) :
    Except Unit (String × List String × Bool) :=
  let file_path := "public/images/" ++ place_id ++ ".jpg"
  if file_path ∈ fs then Except.ok (file_path, fs, false)
  else if strTruthy photo_ref = false then
    let fs2 := if placeholderPath ∈ fs then fs else placeholderPath :: fs
    Except.ok (placeholderPath, fs2, false)
  else
    match fetch (photo_ref.getD "") with
    | PhotoOutcome.status code =>
        if code = 200 then Except.ok (file_path, file_path :: fs, true)
        else Except.ok (placeholderPath, fs, true)
    | PhotoOutcome.transportError => Except.error ()

/-- The value scrape_website extracts from a page (src line 35). -/
structure Extras where
  meta_description : Option String
  menu_links : List String
deriving DecidableEq, Repr

/-- scrape_website (src lines 13-38): a falsy or "N/A" url returns None
without any network call; otherwise the page is fetched, and the oracle
subsumes the HTTP call, the HTML extraction and the swallowed exceptions
(none models a non-200 status or any raised error).  The second component
records whether the network was attempted. -/
def scrape_website (oracle : String → Option Extras) (website_url : String) :
    Option Extras × Bool :=
  if website_url == "" || website_url == "N/A" then (none, false)
  else (oracle website_url, true)

/-- get_yelp_business (src lines 127-167): a falsy Yelp key returns None
before any network call; otherwise the two Yelp HTTP calls, the record
assembly and the swallowed exceptions are abstracted into the oracle.
The second component records whether the network was attempted. -/
def get_yelp_business (yelp_key : Option String)
    (oracle : String → Option Rat → Option Rat → Option YelpBiz)
    (name : String) (lat lon : Option Rat) : Option YelpBiz × Bool :=
  if strTruthy yelp_key = false then (none, false)
  else (oracle name lat lon, true)

/-- A bare search result item, with the fields main reads (geometry is
flattened to the lat/lng leaves). -/
structure RawResult where
  place_id : Option String
  name : Option String
  vicinity : Option String
  photos : Option (List PhotoD)
  geometry_lat : Option Rat
  geometry_lng : Option Rat
  types : Option (List String)
  rating : Option Rat
  user_ratings_total : Option Rat
  price_level : Option Rat
deriving DecidableEq, Repr

/-- A nearby-search response: the results page and the next-page token. -/
structure SearchResponse where
  results : List RawResult
  next_page_token : Option String
deriving DecidableEq, Repr

/-- The process environment read at module load (src lines 68-70): the three
os.getenv results, each absent when the variable is unset. -/
structure Env where
  google_key : Option String
  yelp_key : Option String
  db_url : Option String
deriving DecidableEq, Repr

/-- The external world of one run: the provider responses and the initial
photo-cache contents.  search is keyed by place type and page token; detail
gives the outcome of each attempt of a details call for a place id. -/
structure World where
  search : String → Option String → SearchResponse
  detail : String → Nat → Except Unit Detail
  yelp : String → Option Rat → Option Rat → Option YelpBiz
  photo : String → PhotoOutcome
  scrape : String → Option Extras
  fs0 : List String

/-- The category list PLACE_TYPES (src lines 74-79). -/
def PLACE_TYPES : List String :=
  ["restaurant", "cafe", "store", "gym", "hospital", "school",
   "bank", "beauty_salon", "book_store", "real_estate_agency",
   "lawyer", "electronics_store", "travel_agency", "pet_store",
   "supermarket", "clothing_store", "pharmacy"]

/-- The observable actions of the run, in execution order: provider calls
and persistence writes.  searchCall records the key the request carried. -/
inductive Event where
  | searchCall (key : Option String) (place_type : String)
      (pagetoken : Option String)
  | detailCall (place_id : String)
  | photoFetchCall (place_id : String)
  | yelpCall (name : String)
  | persist (place_id : String)
  | scrapeCall (url : String)
deriving DecidableEq, Repr

/-- The row written by upsert_business (src lines 205-244), i.e. the biz
dict of main (src lines 346-366). -/
structure Biz where
  name : String
  address : Option String
  lat : Option Rat
  lon : Option Rat
  phone : String
  website : String
  place_id : String
  category : Option String
  rating : Option Rat
  rating_count : Option Rat
  opening_hours : Option String
  photo_path : String
  description : Option String
  price_level : Option Rat
  maps_url : Option String
  yelp_id : Option String
  yelp_url : Option String
  price : Option String
deriving DecidableEq, Repr

/-- The category expression of main (src line 354): the first element of
(details.get("types") or item.get("types") or [None]). -/
def categoryOf (detailTypes itemTypes : Option (List String)) :
    Option String :=
  if listTruthy detailTypes then (detailTypes.getD []).head?
  else if listTruthy itemTypes then (itemTypes.getD []).head?
  else none

/-- The photo_ref expression of main (src lines 318-324): the first photo
reference of the detail's photos when that list is truthy, else of the bare
result's photos when truthy, else none. -/
def photoRefOf (details : Detail) (item : RawResult) : Option String :=
  if listTruthy details.photos then
    ((details.photos.getD []).head?.getD { photo_reference := none }).photo_reference
  else if listTruthy item.photos then
    ((item.photos.getD []).head?.getD { photo_reference := none }).photo_reference
  else none

/-- The biz dict of main (src lines 346-366), assembled from the bare result,
the detail, and the optional Yelp record. -/
def mkBiz (item : RawResult) (details : Detail) (yelp_data : Option YelpBiz)
    (pid name photo_path : String) : Biz :=
  { name := name
    address := mergedAddress details.formatted_address item.vicinity yelp_data
    lat := item.geometry_lat
    lon := item.geometry_lng
    phone := mergedPhone details.formatted_phone_number yelp_data
    website := mergedWebsite details.website yelp_data
    place_id := pid
    category := categoryOf details.types item.types
    rating := pyOrNum details.rating item.rating
    rating_count := pyOrNum details.user_ratings_total item.user_ratings_total
    opening_hours := details.opening_hours
    photo_path := photo_path
    description := details.editorial_summary_overview
    price_level := pyOrNum details.price_level item.price_level
    maps_url := details.google_maps_uri
    yelp_id := Option.map (fun y => y.id) yelp_data
    yelp_url := Option.bind yelp_data (fun y => y.url)
    price := Option.bind yelp_data (fun y => y.price) }

/-- The mutable state of main (src lines 299-301) together with the
observable effects: total_inserted counter, seen set (as a list), the
businesses upserted in order, the review rows inserted, the event trace,
and the photo-cache file system. -/
structure MainState where
  total_inserted : Nat
  seen : List String
  persisted : List Biz
  reviewRows : List ReviewRow
  events : List Event
  fs : List String
deriving DecidableEq, Repr

/-- Outcome of processing one search-result item: continue with the next
item, break out of all loops because the target was reached, or abort the
whole run with an uncaught exception. -/
inductive StepRes where
  | next (st : MainState)
  | brk (st : MainState)
  | abort (st : MainState)
deriving DecidableEq, Repr

/-- The state carried by a step outcome. -/
def StepRes.state : StepRes → MainState
  | StepRes.next st => st
  | StepRes.brk st => st
  | StepRes.abort st => st

/-- The events appended by one fully processed item, in execution order:
the detail call, the photo fetch when the network was used, the Yelp call
when the key was set, the upsert, and the scrape when attempted. -/
def itemEvs (pid name url : String) (net yelped scraped : Bool) :
    List Event :=
  Event.detailCall pid ::
    ((if net then [Event.photoFetchCall pid] else []) ++
     ((if yelped then [Event.yelpCall name] else []) ++
      (Event.persist pid ::
       (if scraped then [Event.scrapeCall url] else []))))

/-- The state after the run aborts during the photo download of one item:
the id was already added to seen and the detail call was already made. -/
def abortState (st : MainState) (pid : String) : MainState :=
  { st with
    seen := pid :: st.seen
    events := st.events ++ [Event.detailCall pid] }

/-- The state after one item is fully processed (src lines 315-375), given
the photo-download result (path, cache afterwards, network-used flag):
Yelp lookup, merge, upsert, scrape, reviews, counter increment. -/
def processedState (env : Env) (w : World) (st : MainState)
    (item : RawResult) (photo_path : String) (fs2 : List String)
    (net : Bool) : MainState :=
  let pid := item.place_id.getD ""
  let name := item.name.getD ""
  let details := (place_details (w.detail pid)).1
  let yl := get_yelp_business env.yelp_key w.yelp name
    item.geometry_lat item.geometry_lng
  let biz := mkBiz item details yl.1 pid name photo_path
  let sc := scrape_website w.scrape biz.website
  let rows := insert_reviews st.persisted.length details.reviews
  { total_inserted := st.total_inserted + 1
    seen := pid :: st.seen
    persisted := st.persisted ++ [biz]
    reviewRows := st.reviewRows ++ rows
    events := st.events ++ itemEvs pid name biz.website net yl.2 sc.2
    fs := fs2 }

/-- The body of the inner result loop of main (src lines 310-378) for one
item: skip when place_id or name is falsy or the id was already seen
(src lines 311-314); otherwise add the id to seen, fetch details (with
retries), download the photo (a transport error there aborts the run, the
source having no handler on that path), look up Yelp, merge, upsert the
business, scrape, insert reviews and the deal, increment the counter and
break when the target is reached (src line 376; the source's literal target
is 100, kept as the parameter target). -/
def processItem (env : Env) (w : World) (target : Nat) (st : MainState)
    (item : RawResult) : StepRes :=
  if strTruthy item.place_id = false ∨ strTruthy item.name = false ∨
      (item.place_id.getD "") ∈ st.seen then
    StepRes.next st
  else
    let pid := item.place_id.getD ""
    let details := (place_details (w.detail pid)).1
    let photo_ref := photoRefOf details item
    match download_photo w.photo st.fs photo_ref pid with
    | Except.error _ => StepRes.abort (abortState st pid)
    | Except.ok (photo_path, fs2, net) =>
        let st2 := processedState env w st item photo_path fs2 net
        if target ≤ st2.total_inserted then StepRes.brk st2
        else StepRes.next st2

/-- The inner result loop of main (src line 310) over one page of results. -/
def processResults (env : Env) (w : World) (target : Nat) :
    MainState → List RawResult → StepRes
  | st, [] => StepRes.next st
  | st, item :: rest =>
      match processItem env w target st item with
      | StepRes.next st2 => processResults env w target st2 rest
      | StepRes.brk st2 => StepRes.brk st2
      | StepRes.abort st2 => StepRes.abort st2

/-- The category loop of main (src lines 303-382): check the target before
each category, issue one nearby search without any page token (src line 308
passes no pagetoken to get_places), process its results, and stop when the
target is reached or the run aborts.  Returns the final state and whether
the run aborted. -/
def runCats (env : Env) (w : World) (target : Nat) :
    MainState → List String → MainState × Bool
  | st, [] => (st, false)
  | st, pt :: rest =>
      if target ≤ st.total_inserted then (st, false)
      else
        let resp := w.search pt none
        let st1 :=
          { st with
            events := st.events ++ [Event.searchCall env.google_key pt none] }
        match processResults env w target st1 resp.results with
        | StepRes.abort st2 => (st2, true)
        | StepRes.brk st2 => (st2, false)
        | StepRes.next st2 =>
            if target ≤ st2.total_inserted then (st2, false)
            else runCats env w target st2 rest

/-- The initial state of main (src lines 300-301) over an initial
photo-cache file system. -/
def initState (fs0 : List String) : MainState :=
  { total_inserted := 0
    seen := []
    persisted := []
    reviewRows := []
    events := []
    fs := fs0 }

/-- main (src lines 298-386) with the stop target as a parameter (the
source's literal is 100).  The database connection, the commit and the
prints are outside the model; the run's observable behaviour is the final
state and the aborted flag. -/
def runMain (env : Env) (w : World) (target : Nat) : MainState × Bool :=
  runCats env w target (initState w.fs0) PLACE_TYPES

/-- main exactly as written, with the source's literal target of 100. -/
def mainRun (env : Env) (w : World) : MainState × Bool :=
  runMain env w 100

/-- The place ids of the detail calls in a trace, in order. -/
def detailPids (evs : List Event) : List String :=
  evs.filterMap fun e =>
    match e with
    | Event.detailCall p => some p
    | _ => none

/-- The place ids of the persistence writes in a trace, in order. -/
def persistPids (evs : List Event) : List String :=
  evs.filterMap fun e =>
    match e with
    | Event.persist p => some p
    | _ => none

/-- The page tokens of the search calls in a trace, in order. -/
def searchTokens (evs : List Event) : List (Option String) :=
  evs.filterMap fun e =>
    match e with
    | Event.searchCall _ _ t => some t
    | _ => none

/-!  Theorems.  -/

theorem isSome_false_iff {α : Type} (x : Option α) :
    x.isSome = false ↔ x = none := by
  cases x <;> simp

/-- A detail attempt's result dict is falsy exactly when every requested
field is absent. -/
theorem detail_incomplete_iff (d : Detail) :
    d.isNonEmpty = false ↔
      (d.formatted_address = none ∧ d.formatted_phone_number = none ∧
       d.website = none ∧ d.types = none ∧ d.rating = none ∧
       d.user_ratings_total = none ∧ d.reviews = none ∧
       d.opening_hours = none ∧ d.photos = none ∧ d.price_level = none ∧
       d.editorial_summary_overview = none ∧ d.google_maps_uri = none) := by
  simp [Detail.isNonEmpty, isSome_false_iff, and_assoc]

/-- The detail carried by a successful attempt outcome. -/
def okValue : Except Unit Detail → Detail
  | Except.ok d => d
  | Except.error _ => Detail.empty

/-- Full characterization of place_details by the classification of the
three attempt outcomes. -/
theorem place_details_char (fetch : Nat → Except Unit Detail) :
    place_details fetch =
      if isFailedOutcome (fetch 0) = true then
        if isFailedOutcome (fetch 1) = true then
          if isFailedOutcome (fetch 2) = true then
            (Detail.empty,
             [DEvent.att 0 (fetch 0), DEvent.sleep (sleepFor (fetch 0)),
              DEvent.att 1 (fetch 1), DEvent.sleep (sleepFor (fetch 1)),
              DEvent.att 2 (fetch 2), DEvent.sleep (sleepFor (fetch 2))])
          else
            (okValue (fetch 2),
             [DEvent.att 0 (fetch 0), DEvent.sleep (sleepFor (fetch 0)),
              DEvent.att 1 (fetch 1), DEvent.sleep (sleepFor (fetch 1)),
              DEvent.att 2 (fetch 2)])
        else
          (okValue (fetch 1),
           [DEvent.att 0 (fetch 0), DEvent.sleep (sleepFor (fetch 0)),
            DEvent.att 1 (fetch 1)])
      else (okValue (fetch 0), [DEvent.att 0 (fetch 0)]) := by
  cases hf0 : fetch 0 with
  | ok d0 =>
      cases hne0 : d0.isNonEmpty with
      | true =>
          simp [place_details, place_details_go, isFailedOutcome, okValue,
            hf0, hne0]
      | false =>
          cases hf1 : fetch 1 with
          | ok d1 =>
              cases hne1 : d1.isNonEmpty with
              | true =>
                  simp [place_details, place_details_go, isFailedOutcome,
                    okValue, sleepFor, hf0, hne0, hf1, hne1]
              | false =>
                  cases hf2 : fetch 2 with
                  | ok d2 =>
                      cases hne2 : d2.isNonEmpty with
                      | true =>
                          simp [place_details, place_details_go,
                            isFailedOutcome, okValue, sleepFor,
                            hf0, hne0, hf1, hne1, hf2, hne2]
                      | false =>
                          simp [place_details, place_details_go,
                            isFailedOutcome, okValue, sleepFor,
                            hf0, hne0, hf1, hne1, hf2, hne2]
                  | error e2 =>
                      simp [place_details, place_details_go, isFailedOutcome,
                        okValue, sleepFor, hf0, hne0, hf1, hne1, hf2]
          | error e1 =>
              cases hf2 : fetch 2 with
              | ok d2 =>
                  cases hne2 : d2.isNonEmpty with
                  | true =>
                      simp [place_details, place_details_go, isFailedOutcome,
                        okValue, sleepFor, hf0, hne0, hf1, hf2, hne2]
                  | false =>
                      simp [place_details, place_details_go, isFailedOutcome,
                        okValue, sleepFor, hf0, hne0, hf1, hf2, hne2]
              | error e2 =>
                  simp [place_details, place_details_go, isFailedOutcome,
                    okValue, sleepFor, hf0, hne0, hf1, hf2]
  | error e0 =>
      cases hf1 : fetch 1 with
      | ok d1 =>
          cases hne1 : d1.isNonEmpty with
          | true =>
              simp [place_details, place_details_go, isFailedOutcome,
                okValue, sleepFor, hf0, hf1, hne1]
          | false =>
              cases hf2 : fetch 2 with
              | ok d2 =>
                  cases hne2 : d2.isNonEmpty with
                  | true =>
                      simp [place_details, place_details_go, isFailedOutcome,
                        okValue, sleepFor, hf0, hf1, hne1, hf2, hne2]
                  | false =>
                      simp [place_details, place_details_go, isFailedOutcome,
                        okValue, sleepFor, hf0, hf1, hne1, hf2, hne2]
              | error e2 =>
                  simp [place_details, place_details_go, isFailedOutcome,
                    okValue, sleepFor, hf0, hf1, hne1, hf2]
      | error e1 =>
          cases hf2 : fetch 2 with
          | ok d2 =>
              cases hne2 : d2.isNonEmpty with
              | true =>
                  simp [place_details, place_details_go, isFailedOutcome,
                    okValue, sleepFor, hf0, hf1, hf2, hne2]
              | false =>
                  simp [place_details, place_details_go, isFailedOutcome,
                    okValue, sleepFor, hf0, hf1, hf2, hne2]
          | error e2 =>
              simp [place_details, place_details_go, isFailedOutcome,
                okValue, sleepFor, hf0, hf1, hf2]

/-- When all three attempts fail or come back empty, the returned detail is
empty. -/
theorem pd_empty_of_all_failed (fetch : Nat → Except Unit Detail)
    (h : ∀ i, i < 3 → isFailedOutcome (fetch i) = true) :
    (place_details fetch).1 = Detail.empty := by
  rw [place_details_char]
  simp [h 0 (by omega), h 1 (by omega), h 2 (by omega)]

/-- C2: the detail fetch makes up to 3 attempts; a response counts as
incomplete (and triggers a further attempt) exactly when none of the
requested always-present-when-valid fields (address and website among them)
is present; a fixed delay (1.5s after an empty result, 2s after an
exception) is slept between attempts; and after exhausting all retries the
empty detail is returned rather than a failure. -/
theorem claim2_detail_retry :
    ∀ fetch : Nat → Except Unit Detail,
      attCount (place_details fetch).2 ≤ 3 ∧
      (∀ d : Detail, d.isNonEmpty = false ↔
        (d.formatted_address = none ∧ d.formatted_phone_number = none ∧
         d.website = none ∧ d.types = none ∧ d.rating = none ∧
         d.user_ratings_total = none ∧ d.reviews = none ∧
         d.opening_hours = none ∧ d.photos = none ∧ d.price_level = none ∧
         d.editorial_summary_overview = none ∧ d.google_maps_uri = none)) ∧
      hasAtt (place_details fetch).2 0 ∧
      (hasAtt (place_details fetch).2 1 ↔
        isFailedOutcome (fetch 0) = true) ∧
      (hasAtt (place_details fetch).2 2 ↔
        (isFailedOutcome (fetch 0) = true ∧
         isFailedOutcome (fetch 1) = true)) ∧
      gapsOk (place_details fetch).2 = true ∧
      ((∀ i, i < 3 → isFailedOutcome (fetch i) = true) →
        (place_details fetch).1 = Detail.empty) := by
  intro fetch
  refine ⟨?_, fun d => detail_incomplete_iff d, ?_, ?_, ?_, ?_,
    pd_empty_of_all_failed fetch⟩
  · rw [place_details_char]
    split_ifs <;> simp [attCount]
  · rw [place_details_char]
    split_ifs <;> exact ⟨fetch 0, by simp⟩
  · rw [place_details_char]
    split_ifs with h0 h1 h2 <;> simp [hasAtt, h0]
  · rw [place_details_char]
    split_ifs with h0 h1 h2 <;> simp [hasAtt, h0] <;> simp_all
  · rw [place_details_char]
    split_ifs <;> simp [gapsOk]

/-- Witness for claim 2: with every attempt raising, there are 3 attempts,
the gaps are well formed, and the returned detail is empty. -/
theorem claim2_detail_retry_witness :
    attCount (place_details fun _ => Except.error ()).2 ≤ 3 ∧
    gapsOk (place_details fun _ => Except.error ()).2 = true ∧
    (place_details fun _ => Except.error ()).1 = Detail.empty :=
  ⟨(claim2_detail_retry fun _ => Except.error ()).1,
   (claim2_detail_retry fun _ => Except.error ()).2.2.2.2.2.1,
   (claim2_detail_retry fun _ => Except.error ()).2.2.2.2.2.2
     (fun _ _ => rfl)⟩


theorem detailPids_append (a b : List Event) :
    detailPids (a ++ b) = detailPids a ++ detailPids b := by
  simp [detailPids]

theorem persistPids_append (a b : List Event) :
    persistPids (a ++ b) = persistPids a ++ persistPids b := by
  simp [persistPids]

theorem searchTokens_append (a b : List Event) :
    searchTokens (a ++ b) = searchTokens a ++ searchTokens b := by
  simp [searchTokens]

theorem detailPids_item_evs (pid name url : String) (b1 b2 b3 : Bool) :
    detailPids (itemEvs pid name url b1 b2 b3) = [pid] := by
  cases b1 <;> cases b2 <;> cases b3 <;> rfl

theorem persistPids_item_evs (pid name url : String) (b1 b2 b3 : Bool) :
    persistPids (itemEvs pid name url b1 b2 b3) = [pid] := by
  cases b1 <;> cases b2 <;> cases b3 <;> rfl

theorem searchTokens_item_evs (pid name url : String) (b1 b2 b3 : Bool) :
    searchTokens (itemEvs pid name url b1 b2 b3) = [] := by
  cases b1 <;> cases b2 <;> cases b3 <;> rfl

/-- Master case analysis of processItem: either the item is skipped with the
state unchanged, or the run aborts during the photo download after the id
was added to seen and the detail call was made, or the item is fully
processed: the id is added to seen, the counter and the persisted list grow
by one, the appended events contain exactly one detail call and one persist
for this id and no search call, and the step breaks exactly when the target
is reached. -/
theorem processItem_cases (env : Env) (w : World) (target : Nat)
    (st : MainState) (item : RawResult) :
    processItem env w target st item = StepRes.next st ∨
    (∃ pid st2,
      pid ∉ st.seen ∧
      st2.seen = pid :: st.seen ∧
      st2.total_inserted = st.total_inserted ∧
      st2.persisted = st.persisted ∧
      st2.events = st.events ++ [Event.detailCall pid] ∧
      processItem env w target st item = StepRes.abort st2) ∨
    (∃ pid st2 evs,
      pid ∉ st.seen ∧
      st2.seen = pid :: st.seen ∧
      st2.total_inserted = st.total_inserted + 1 ∧
      st2.persisted.length = st.persisted.length + 1 ∧
      st2.events = st.events ++ evs ∧
      detailPids evs = [pid] ∧ persistPids evs = [pid] ∧
      searchTokens evs = [] ∧
      ((target ≤ st.total_inserted + 1 ∧
          processItem env w target st item = StepRes.brk st2) ∨
       (st.total_inserted + 1 < target ∧
          processItem env w target st item = StepRes.next st2))) := by
  by_cases hskip : (strTruthy item.place_id = false ∨
      strTruthy item.name = false ∨ (item.place_id.getD "") ∈ st.seen)
  · left
    simp only [processItem, if_pos hskip]
  · have hmem : (item.place_id.getD "") ∉ st.seen := by
      intro hc
      exact hskip (Or.inr (Or.inr hc))
    rcases hdl : download_photo w.photo st.fs
        (photoRefOf (place_details
          (w.detail (item.place_id.getD ""))).1 item)
        (item.place_id.getD "") with e | res
    · right; left
      refine ⟨item.place_id.getD "", abortState st (item.place_id.getD ""),
        hmem, rfl, rfl, rfl, rfl, ?_⟩
      simp only [processItem, if_neg hskip]
      simp only [hdl]
    · rcases res with ⟨pp, fs2, net⟩
      right; right
      have hrun : processItem env w target st item =
          (if target ≤ (processedState env w st item pp fs2 net).total_inserted
           then StepRes.brk (processedState env w st item pp fs2 net)
           else StepRes.next (processedState env w st item pp fs2 net)) := by
        simp only [processItem, if_neg hskip]
        simp only [hdl]
      have htot : (processedState env w st item pp fs2 net).total_inserted =
          st.total_inserted + 1 := rfl
      by_cases htar : target ≤ st.total_inserted + 1
      · refine ⟨item.place_id.getD "", processedState env w st item pp fs2 net,
          itemEvs (item.place_id.getD "") (item.name.getD "")
            (mkBiz item (place_details (w.detail (item.place_id.getD ""))).1
              (get_yelp_business env.yelp_key w.yelp (item.name.getD "")
                item.geometry_lat item.geometry_lng).1
              (item.place_id.getD "") (item.name.getD "") pp).website
            net
            (get_yelp_business env.yelp_key w.yelp (item.name.getD "")
              item.geometry_lat item.geometry_lng).2
            (scrape_website w.scrape
              (mkBiz item (place_details (w.detail (item.place_id.getD ""))).1
                (get_yelp_business env.yelp_key w.yelp (item.name.getD "")
                  item.geometry_lat item.geometry_lng).1
                (item.place_id.getD "") (item.name.getD "") pp).website).2,
          hmem, rfl, rfl, by simp [processedState], rfl,
          detailPids_item_evs _ _ _ _ _ _, persistPids_item_evs _ _ _ _ _ _,
          searchTokens_item_evs _ _ _ _ _ _, Or.inl ⟨htar, ?_⟩⟩
        rw [hrun, htot, if_pos htar]
      · refine ⟨item.place_id.getD "", processedState env w st item pp fs2 net,
          itemEvs (item.place_id.getD "") (item.name.getD "")
            (mkBiz item (place_details (w.detail (item.place_id.getD ""))).1
              (get_yelp_business env.yelp_key w.yelp (item.name.getD "")
                item.geometry_lat item.geometry_lng).1
              (item.place_id.getD "") (item.name.getD "") pp).website
            net
            (get_yelp_business env.yelp_key w.yelp (item.name.getD "")
              item.geometry_lat item.geometry_lng).2
            (scrape_website w.scrape
              (mkBiz item (place_details (w.detail (item.place_id.getD ""))).1
                (get_yelp_business env.yelp_key w.yelp (item.name.getD "")
                  item.geometry_lat item.geometry_lng).1
                (item.place_id.getD "") (item.name.getD "") pp).website).2,
          hmem, rfl, rfl, by simp [processedState], rfl,
          detailPids_item_evs _ _ _ _ _ _, persistPids_item_evs _ _ _ _ _ _,
          searchTokens_item_evs _ _ _ _ _ _, Or.inr ⟨by omega, ?_⟩⟩
        rw [hrun, htot, if_neg htar]

/-- Dedup invariant: detail-called ids are pairwise distinct and recorded in
the seen set, and a persist never happens more often than a detail call. -/
def DedupInv (st : MainState) : Prop :=
  (detailPids st.events).Nodup ∧
  (∀ p ∈ detailPids st.events, p ∈ st.seen) ∧
  (∀ p : String,
    (persistPids st.events).count p ≤ (detailPids st.events).count p)

theorem processItem_dedupInv (env : Env) (w : World) (target : Nat)
    (st : MainState) (item : RawResult) (h : DedupInv st) :
    DedupInv ((processItem env w target st item).state) := by
  obtain ⟨h1, h2, h3⟩ := h
  rcases processItem_cases env w target st item with hc |
    ⟨pid, st2, hpid, hseen, _, _, hev, hc⟩ |
    ⟨pid, st2, evs, hpid, hseen, _, _, hev, hdp, hpp, _, hor⟩
  · rw [hc]
    exact ⟨h1, h2, h3⟩
  · rw [hc]
    simp only [StepRes.state]
    have hnotin : pid ∉ detailPids st.events := fun hc2 => hpid (h2 pid hc2)
    have hde : detailPids st2.events = detailPids st.events ++ [pid] := by
      rw [hev, detailPids_append]; rfl
    have hpe : persistPids st2.events = persistPids st.events := by
      rw [hev, persistPids_append]; simp [persistPids]
    refine ⟨?_, ?_, ?_⟩
    · rw [hde]
      exact List.Nodup.append h1 (List.nodup_singleton pid)
        (fun a ha hb => by
          simp only [List.mem_singleton] at hb
          exact hnotin (hb ▸ ha))
    · intro p hp
      rw [hde] at hp
      rcases List.mem_append.1 hp with hp | hp
      · exact hseen ▸ List.mem_cons_of_mem pid (h2 p hp)
      · simp only [List.mem_singleton] at hp
        exact hseen ▸ (hp ▸ List.mem_cons_self pid st.seen)
    · intro p
      rw [hde, hpe, List.count_append]
      exact le_trans (h3 p) (Nat.le_add_right _ _)
  · have hde : detailPids st2.events = detailPids st.events ++ [pid] := by
      rw [hev, detailPids_append, hdp]
    have hpe : persistPids st2.events = persistPids st.events ++ [pid] := by
      rw [hev, persistPids_append, hpp]
    have hnotin : pid ∉ detailPids st.events := fun hc2 => hpid (h2 pid hc2)
    have hinv : DedupInv st2 := by
      refine ⟨?_, ?_, ?_⟩
      · rw [hde]
        exact List.Nodup.append h1 (List.nodup_singleton pid)
          (fun a ha hb => by
            simp only [List.mem_singleton] at hb
            exact hnotin (hb ▸ ha))
      · intro p hp
        rw [hde] at hp
        rcases List.mem_append.1 hp with hp | hp
        · exact hseen ▸ List.mem_cons_of_mem pid (h2 p hp)
        · simp only [List.mem_singleton] at hp
          exact hseen ▸ (hp ▸ List.mem_cons_self pid st.seen)
      · intro p
        rw [hde, hpe, List.count_append, List.count_append]
        exact Nat.add_le_add (h3 p) (le_refl _)
    rcases hor with ⟨_, hc⟩ | ⟨_, hc⟩ <;> rw [hc] <;> exact hinv

theorem processResults_dedupInv (env : Env) (w : World) (target : Nat) :
    ∀ (items : List RawResult) (st : MainState), DedupInv st →
      DedupInv ((processResults env w target st items).state) := by
  intro items
  induction items with
  | nil =>
      intro st h
      simpa [processResults, StepRes.state] using h
  | cons item rest ih =>
      intro st h
      have h2 := processItem_dedupInv env w target st item h
      cases hc : processItem env w target st item with
      | next st2 =>
          rw [hc] at h2
          simp only [StepRes.state] at h2
          simpa [processResults, hc] using ih st2 h2
      | brk st2 =>
          rw [hc] at h2
          simp only [StepRes.state] at h2
          simpa [processResults, hc, StepRes.state] using h2
      | abort st2 =>
          rw [hc] at h2
          simp only [StepRes.state] at h2
          simpa [processResults, hc, StepRes.state] using h2

theorem searchEvent_dedupInv (st : MainState) (k : Option String)
    (pt : String) (tok : Option String) (h : DedupInv st) :
    DedupInv { st with
      events := st.events ++ [Event.searchCall k pt tok] } := by
  obtain ⟨h1, h2, h3⟩ := h
  have hde : detailPids (st.events ++ [Event.searchCall k pt tok]) =
      detailPids st.events := by
    rw [detailPids_append]; simp [detailPids]
  have hpe : persistPids (st.events ++ [Event.searchCall k pt tok]) =
      persistPids st.events := by
    rw [persistPids_append]; simp [persistPids]
  exact ⟨by rw [hde]; exact h1, by rw [hde]; exact h2,
    fun p => by rw [hde, hpe]; exact h3 p⟩

theorem runCats_dedupInv (env : Env) (w : World) (target : Nat) :
    ∀ (cats : List String) (st : MainState), DedupInv st →
      DedupInv (runCats env w target st cats).1 := by
  intro cats
  induction cats with
  | nil =>
      intro st h
      simpa [runCats] using h
  | cons pt rest ih =>
      intro st h
      by_cases htar : target ≤ st.total_inserted
      · simpa [runCats, htar] using h
      · have hst1 := searchEvent_dedupInv st env.google_key pt none h
        have hres2 := processResults_dedupInv env w target
          (w.search pt none).results
          { st with
            events := st.events ++ [Event.searchCall env.google_key pt none] }
          hst1
        simp only [runCats, if_neg htar]
        cases hres : processResults env w target
            { st with
              events := st.events ++
                [Event.searchCall env.google_key pt none] }
            (w.search pt none).results with
        | next st2 =>
            rw [hres] at hres2
            simp only [StepRes.state] at hres2
            by_cases h2t : target ≤ st2.total_inserted
            · simpa [h2t] using hres2
            · simpa [h2t] using ih st2 hres2
        | brk st2 =>
            rw [hres] at hres2
            simp only [StepRes.state] at hres2
            exact hres2
        | abort st2 =>
            rw [hres] at hres2
            simp only [StepRes.state] at hres2
            exact hres2

theorem processResults_bound (env : Env) (w : World) (target : Nat) :
    ∀ (items : List RawResult) (st : MainState),
      st.total_inserted = st.persisted.length →
      st.total_inserted < target →
      ((processResults env w target st items).state.total_inserted =
         (processResults env w target st items).state.persisted.length ∧
       (processResults env w target st items).state.total_inserted ≤
         target) := by
  intro items
  induction items with
  | nil =>
      intro st h1 h2
      simpa [processResults, StepRes.state] using ⟨h1, le_of_lt h2⟩
  | cons item rest ih =>
      intro st h1 h2
      rcases processItem_cases env w target st item with hc |
        ⟨pid, st2, _, _, ht, hp, _, hc⟩ |
        ⟨pid, st2, evs, _, _, ht, hp, _, _, _, _, hor⟩
      · simpa [processResults, hc] using ih st h1 h2
      · simp only [processResults, hc, StepRes.state]
        exact ⟨by rw [ht, hp]; exact h1, by rw [ht]; exact le_of_lt h2⟩
      · rcases hor with ⟨hle, hc⟩ | ⟨hlt, hc⟩
        · simp only [processResults, hc, StepRes.state]
          exact ⟨by rw [ht, hp]; omega, by rw [ht]; omega⟩
        · simp only [processResults, hc]
          exact ih st2 (by rw [ht, hp]; omega) (by rw [ht]; omega)

theorem runCats_bound (env : Env) (w : World) (target : Nat) :
    ∀ (cats : List String) (st : MainState),
      st.total_inserted = st.persisted.length →
      st.total_inserted ≤ target →
      ((runCats env w target st cats).1.total_inserted =
         (runCats env w target st cats).1.persisted.length ∧
       (runCats env w target st cats).1.total_inserted ≤ target) := by
  intro cats
  induction cats with
  | nil =>
      intro st h1 h2
      simpa [runCats] using ⟨h1, h2⟩
  | cons pt rest ih =>
      intro st h1 h2
      by_cases htar : target ≤ st.total_inserted
      · simpa [runCats, htar] using ⟨h1, h2⟩
      · have hlt : st.total_inserted < target := by omega
        have hb := processResults_bound env w target (w.search pt none).results
          { st with
            events := st.events ++ [Event.searchCall env.google_key pt none] }
          h1 hlt
        simp only [runCats, if_neg htar]
        cases hres : processResults env w target
            { st with
              events := st.events ++
                [Event.searchCall env.google_key pt none] }
            (w.search pt none).results with
        | next st2 =>
            rw [hres] at hb
            simp only [StepRes.state] at hb
            by_cases h2t : target ≤ st2.total_inserted
            · simpa [h2t] using hb
            · simpa [h2t] using ih st2 hb.1 hb.2
        | brk st2 =>
            rw [hres] at hb
            simp only [StepRes.state] at hb
            exact hb
        | abort st2 =>
            rw [hres] at hb
            simp only [StepRes.state] at hb
            exact hb

theorem processItem_tokens (env : Env) (w : World) (target : Nat)
    (st : MainState) (item : RawResult) :
    searchTokens ((processItem env w target st item).state).events =
      searchTokens st.events := by
  rcases processItem_cases env w target st item with hc |
    ⟨pid, st2, _, _, _, _, hev, hc⟩ |
    ⟨pid, st2, evs, _, _, _, _, hev, _, _, hse, hor⟩
  · rw [hc]
    simp [StepRes.state]
  · rw [hc]
    simp only [StepRes.state]
    rw [hev, searchTokens_append]
    simp [searchTokens]
  · rcases hor with ⟨_, hc⟩ | ⟨_, hc⟩ <;>
      (rw [hc]
       simp only [StepRes.state]
       rw [hev, searchTokens_append, hse, List.append_nil])

theorem processResults_tokens (env : Env) (w : World) (target : Nat) :
    ∀ (items : List RawResult) (st : MainState),
      searchTokens ((processResults env w target st items).state).events =
        searchTokens st.events := by
  intro items
  induction items with
  | nil =>
      intro st
      simp [processResults, StepRes.state]
  | cons item rest ih =>
      intro st
      have hstep := processItem_tokens env w target st item
      cases hc : processItem env w target st item with
      | next st2 =>
          rw [hc] at hstep
          simp only [StepRes.state] at hstep
          rw [show processResults env w target st (item :: rest) =
            processResults env w target st2 rest by
              simp [processResults, hc]]
          rw [ih st2, hstep]
      | brk st2 =>
          rw [hc] at hstep
          simp only [StepRes.state] at hstep
          simpa [processResults, hc, StepRes.state] using hstep
      | abort st2 =>
          rw [hc] at hstep
          simp only [StepRes.state] at hstep
          simpa [processResults, hc, StepRes.state] using hstep

theorem runCats_tokens (env : Env) (w : World) (target : Nat) :
    ∀ (cats : List String) (st : MainState),
      (∀ t ∈ searchTokens st.events, t = none) →
      ∀ t ∈ searchTokens (runCats env w target st cats).1.events,
        t = none := by
  intro cats
  induction cats with
  | nil =>
      intro st h
      simpa [runCats] using h
  | cons pt rest ih =>
      intro st h
      by_cases htar : target ≤ st.total_inserted
      · simpa [runCats, htar] using h
      · have h1 : ∀ t ∈ searchTokens
            ({ st with events := st.events ++
              [Event.searchCall env.google_key pt none] } :
                MainState).events, t = none := by
          simp only [searchTokens_append]
          intro t ht
          rcases List.mem_append.1 ht with ht | ht
          · exact h t ht
          · simp only [searchTokens, List.filterMap] at ht
            simpa using ht
        have h2 := processResults_tokens env w target (w.search pt none).results
          { st with
            events := st.events ++ [Event.searchCall env.google_key pt none] }
        simp only [runCats, if_neg htar]
        cases hres : processResults env w target
            { st with
              events := st.events ++
                [Event.searchCall env.google_key pt none] }
            (w.search pt none).results with
        | next st2 =>
            rw [hres] at h2
            simp only [StepRes.state] at h2
            have h3 : ∀ t ∈ searchTokens st2.events, t = none := by
              rw [h2]; exact h1
            by_cases h2t : target ≤ st2.total_inserted
            · simpa [h2t] using h3
            · simpa [h2t] using ih st2 h3
        | brk st2 =>
            rw [hres] at h2
            simp only [StepRes.state] at h2
            intro t ht
            rw [h2] at ht
            exact h1 t ht
        | abort st2 =>
            rw [hres] at h2
            simp only [StepRes.state] at h2
            intro t ht
            rw [h2] at ht
            exact h1 t ht

theorem processItem_events_prefix (env : Env) (w : World) (target : Nat)
    (st : MainState) (item : RawResult) :
    ∃ tl, ((processItem env w target st item).state).events =
      st.events ++ tl := by
  rcases processItem_cases env w target st item with hc |
    ⟨pid, st2, _, _, _, _, hev, hc⟩ |
    ⟨pid, st2, evs, _, _, _, _, hev, _, _, _, hor⟩
  · exact ⟨[], by rw [hc]; simp [StepRes.state]⟩
  · exact ⟨[Event.detailCall pid], by rw [hc]; simpa [StepRes.state] using hev⟩
  · rcases hor with ⟨_, hc⟩ | ⟨_, hc⟩ <;>
      exact ⟨evs, by rw [hc]; simpa [StepRes.state] using hev⟩

theorem processResults_events_prefix (env : Env) (w : World) (target : Nat) :
    ∀ (items : List RawResult) (st : MainState),
      ∃ tl, ((processResults env w target st items).state).events =
        st.events ++ tl := by
  intro items
  induction items with
  | nil =>
      intro st
      exact ⟨[], by simp [processResults, StepRes.state]⟩
  | cons item rest ih =>
      intro st
      obtain ⟨tl1, h1⟩ := processItem_events_prefix env w target st item
      cases hc : processItem env w target st item with
      | next st2 =>
          rw [hc] at h1
          simp only [StepRes.state] at h1
          obtain ⟨tl2, h2⟩ := ih st2
          refine ⟨tl1 ++ tl2, ?_⟩
          rw [show processResults env w target st (item :: rest) =
            processResults env w target st2 rest by
              simp [processResults, hc]]
          rw [h2, h1, List.append_assoc]
      | brk st2 =>
          rw [hc] at h1
          simp only [StepRes.state] at h1
          exact ⟨tl1, by simpa [processResults, hc, StepRes.state] using h1⟩
      | abort st2 =>
          rw [hc] at h1
          simp only [StepRes.state] at h1
          exact ⟨tl1, by simpa [processResults, hc, StepRes.state] using h1⟩

theorem runCats_events_prefix (env : Env) (w : World) (target : Nat) :
    ∀ (cats : List String) (st : MainState),
      ∃ tl, (runCats env w target st cats).1.events = st.events ++ tl := by
  intro cats
  induction cats with
  | nil =>
      intro st
      exact ⟨[], by simp [runCats]⟩
  | cons pt rest ih =>
      intro st
      by_cases htar : target ≤ st.total_inserted
      · exact ⟨[], by simp [runCats, htar]⟩
      · obtain ⟨tl1, h1⟩ := processResults_events_prefix env w target
          (w.search pt none).results
          { st with
            events := st.events ++ [Event.searchCall env.google_key pt none] }
        simp only [runCats, if_neg htar]
        cases hres : processResults env w target
            { st with
              events := st.events ++
                [Event.searchCall env.google_key pt none] }
            (w.search pt none).results with
        | next st2 =>
            rw [hres] at h1
            simp only [StepRes.state] at h1
            obtain ⟨tl2, h2⟩ := ih st2
            by_cases h2t : target ≤ st2.total_inserted
            · refine ⟨[Event.searchCall env.google_key pt none] ++ tl1, ?_⟩
              simp only [h2t, if_pos]
              rw [h1, List.append_assoc]
            · refine ⟨[Event.searchCall env.google_key pt none] ++ tl1 ++ tl2,
                ?_⟩
              simp only [h2t, if_neg, if_false]
              rw [h2, h1]
              simp [List.append_assoc]
        | brk st2 =>
            rw [hres] at h1
            simp only [StepRes.state] at h1
            refine ⟨[Event.searchCall env.google_key pt none] ++ tl1, ?_⟩
            rw [h1, List.append_assoc]
        | abort st2 =>
            rw [hres] at h1
            simp only [StepRes.state] at h1
            refine ⟨[Event.searchCall env.google_key pt none] ++ tl1, ?_⟩
            rw [h1, List.append_assoc]

/-- C1: the merged websiteUrl and phone follow the precedence rule: the
detail value is used when present and not the "N/A" sentinel; otherwise the
secondary (Yelp) value; otherwise the sentinel.  In particular a detail
website of "N/A" with a Yelp match carrying external_website
"https://x.test" merges to "https://x.test", and a real detail website is
kept regardless of secondary data.  The merged value is a total String,
hence never null. -/
theorem claim1_merge_precedence :
    (∀ y : YelpBiz, y.external_website = some "https://x.test" →
      mergedWebsite (some "N/A") (some y) = "https://x.test") ∧
    (∀ (s : String) (y : Option YelpBiz), s ≠ "" → s ≠ "N/A" →
      mergedWebsite (some s) y = s ∧ mergedPhone (some s) y = s) ∧
    (∀ (d : Option String) (y : YelpBiz),
      strTruthy d = false ∨ d = some "N/A" →
      strTruthy (pyOrStr y.external_website y.url) = true →
      mergedWebsite d (some y) = (pyOrStr y.external_website y.url).getD "") ∧
    (∀ (d : Option String) (y : YelpBiz),
      strTruthy d = false ∨ d = some "N/A" →
      strTruthy y.display_phone = true →
      mergedPhone d (some y) = y.display_phone.getD "") ∧
    (∀ d : Option String, strTruthy d = false ∨ d = some "N/A" →
      mergedWebsite d none = "N/A" ∧ mergedPhone d none = "N/A") ∧
    (∀ (d : Option String) (y : YelpBiz),
      strTruthy d = false ∨ d = some "N/A" →
      strTruthy (pyOrStr y.external_website y.url) = false →
      mergedWebsite d (some y) = "N/A") ∧
    (∀ (d : Option String) (y : YelpBiz),
      strTruthy d = false ∨ d = some "N/A" →
      strTruthy y.display_phone = false →
      mergedPhone d (some y) = "N/A") := by
  refine ⟨?_, ?_, ?_, ?_, ?_, ?_, ?_⟩
  · intro y hy
    simp [mergedWebsite, mergeWebsiteOpt, pyOrNA, pyOrStr, hy, strTruthy]
  · intro s y hs hna
    have hts : strTruthy (some s) = true := by simp [strTruthy, hs]
    cases y with
    | none =>
        constructor <;>
          simp [mergedWebsite, mergedPhone, mergeWebsiteOpt, mergePhoneOpt,
            pyOrNA, hts]
    | some y =>
        constructor <;>
          simp [mergedWebsite, mergedPhone, mergeWebsiteOpt, mergePhoneOpt,
            pyOrNA, strTruthy, hs, hna]
  · intro d y hd hy
    simp [mergedWebsite, mergeWebsiteOpt, pyOrNA, hd, hy]
  · intro d y hd hy
    simp [mergedPhone, mergePhoneOpt, pyOrNA, hd, hy]
  · intro d hd
    rcases hd with hd | hd
    · constructor <;>
        simp [mergedWebsite, mergedPhone, mergeWebsiteOpt, mergePhoneOpt,
          pyOrNA, hd]
    · subst hd
      constructor <;>
        simp [mergedWebsite, mergedPhone, mergeWebsiteOpt, mergePhoneOpt,
          pyOrNA, strTruthy]
  · intro d y hd hy
    simp [mergedWebsite, mergeWebsiteOpt, pyOrNA, hd, hy]
  · intro d y hd hy
    simp [mergedPhone, mergePhoneOpt, pyOrNA, hd, hy]

/-- A concrete Yelp record used by the claim-1 witness. -/
def yX : YelpBiz :=
  { id := "yelp-1"
    name := some "X Cafe"
    url := some "https://yelp.example/x"
    display_phone := some "555-1234"
    price := none
    location_address1 := none
    external_website := some "https://x.test" }

/-- Witness for claim 1 at concrete inputs. -/
theorem claim1_merge_precedence_witness :
    mergedWebsite (some "N/A") (some yX) = "https://x.test" ∧
    mergedWebsite (some "https://real.example") (some yX) =
      "https://real.example" ∧
    mergedPhone none (some yX) = "555-1234" ∧
    mergedWebsite none none = "N/A" :=
  ⟨claim1_merge_precedence.1 yX rfl,
   (claim1_merge_precedence.2.1 "https://real.example" (some yX)
     (by decide) (by decide)).1,
   (claim1_merge_precedence.2.2.2.1 none yX (Or.inl rfl) rfl).trans rfl,
   (claim1_merge_precedence.2.2.2.2.1 none (Or.inl rfl)).1⟩

/-- C7: insert_reviews persists at most the first 5 reviews of the supplied
sequence, in original order; with 8 reviews exactly the first 5 rows are
inserted. -/
theorem claim7_review_cap :
    ∀ (bid : Nat) (rs : List ReviewSrc),
      (insert_reviews bid (some rs)).length = min 5 rs.length ∧
      (∀ (i : Nat) (h1 : i < (insert_reviews bid (some rs)).length)
         (h2 : i < rs.length),
         (insert_reviews bid (some rs))[i] = reviewRow bid rs[i]) ∧
      (rs.length = 8 → (insert_reviews bid (some rs)).length = 5) := by
  intro bid rs
  cases rs with
  | nil =>
      refine ⟨by simp [insert_reviews, listTruthy], ?_, by simp⟩
      intro i h1 h2
      simp [insert_reviews, listTruthy] at h1
  | cons a l =>
      have hne : insert_reviews bid (some (a :: l)) =
          ((a :: l).take 5).map (reviewRow bid) := by
        simp [insert_reviews, listTruthy]
      refine ⟨?_, ?_, ?_⟩
      · simp [hne]
        omega
      · intro i h1 h2
        simp only [hne] at h1 ⊢
        rw [List.getElem_map, List.getElem_take]
      · intro hlen
        simp only [List.length_cons] at hlen
        simp [hne]
        omega

/-- A concrete review record used by the claim-7 witness. -/
def rsv (n : Nat) : ReviewSrc :=
  { author_name := some (String.mk (List.replicate n 'a'))
    rating := some (n : Rat)
    text := none
    relative_time_description := none }

/-- The eight-review input of the claim-7 witness. -/
def rs8 : List ReviewSrc :=
  [rsv 1, rsv 2, rsv 3, rsv 4, rsv 5, rsv 6, rsv 7, rsv 8]

/-- Witness for claim 7: with 8 supplied reviews, 5 rows are inserted and
row 0 is the first review. -/
theorem claim7_review_cap_witness :
    (insert_reviews 7 (some rs8)).length = min 5 rs8.length ∧
    rs8.length = 8 ∧
    (insert_reviews 7 (some rs8)).length = 5 ∧
    (insert_reviews 7 (some rs8)).get ⟨0, by decide⟩ = reviewRow 7 (rsv 1) :=
  ⟨(claim7_review_cap 7 rs8).1, rfl, (claim7_review_cap 7 rs8).2.2 rfl,
   (claim7_review_cap 7 rs8).2.1 0 (by decide) (by decide)⟩

/-- C8 counterexample: the claim says the photo fetch never raises and that
any non-success fetch outcome yields the placeholder path, but when the
photo request itself raises a transport-level error (the source has no
try/except in download_photo), the exception propagates to the caller:
at this concrete input download_photo is an error, not the placeholder. -/
theorem claim8_counterexample :
    download_photo (fun _ => PhotoOutcome.transportError) []
      (some "ref123") "p1" = Except.error () := rfl

/-- C8 amended: the cached path is returned with no network call; an absent
photo reference yields the placeholder with no network call; a non-success
HTTP status yields the placeholder; but a transport-level exception from the
fetch propagates to the caller instead of yielding the placeholder. -/
theorem claim8_amended :
    (∀ (fetch : String → PhotoOutcome) (fs : List String)
       (ref : Option String) (pid : String),
       ("public/images/" ++ pid ++ ".jpg") ∈ fs →
       download_photo fetch fs ref pid =
         Except.ok ("public/images/" ++ pid ++ ".jpg", fs, false)) ∧
    (∀ (fetch : String → PhotoOutcome) (fs : List String) (pid : String),
       ("public/images/" ++ pid ++ ".jpg") ∉ fs →
       download_photo fetch fs none pid =
         Except.ok (placeholderPath,
           if placeholderPath ∈ fs then fs else placeholderPath :: fs,
           false)) ∧
    (∀ (fetch : String → PhotoOutcome) (fs : List String)
       (ref pid : String) (code : Nat),
       ("public/images/" ++ pid ++ ".jpg") ∉ fs →
       ref ≠ "" → fetch ref = PhotoOutcome.status code → code ≠ 200 →
       download_photo fetch fs (some ref) pid =
         Except.ok (placeholderPath, fs, true)) ∧
    (∀ (fetch : String → PhotoOutcome) (fs : List String) (ref pid : String),
       ("public/images/" ++ pid ++ ".jpg") ∉ fs →
       ref ≠ "" → fetch ref = PhotoOutcome.transportError →
       download_photo fetch fs (some ref) pid = Except.error ()) := by
  refine ⟨?_, ?_, ?_, ?_⟩
  · intro fetch fs ref pid h
    simp [download_photo, h]
  · intro fetch fs pid h
    simp [download_photo, h, strTruthy]
  · intro fetch fs ref pid code h href hfetch hcode
    simp [download_photo, h, strTruthy, href, hfetch, hcode]
  · intro fetch fs ref pid h href hfetch
    simp [download_photo, h, strTruthy, href, hfetch]

/-- Witness for claim 8 (amended) at concrete inputs. -/
theorem claim8_amended_witness :
    download_photo (fun _ => PhotoOutcome.transportError)
      ["public/images/p1.jpg"] (some "r") "p1" =
      Except.ok ("public/images/p1.jpg", ["public/images/p1.jpg"], false) ∧
    download_photo (fun _ => PhotoOutcome.transportError) [] none "p2" =
      Except.ok (placeholderPath,
        if placeholderPath ∈ ([] : List String) then []
        else placeholderPath :: [], false) ∧
    download_photo (fun _ => PhotoOutcome.status 403) [] (some "r") "p3" =
      Except.ok (placeholderPath, [], true) ∧
    download_photo (fun _ => PhotoOutcome.transportError) [] (some "r") "p4" =
      Except.error () :=
  ⟨claim8_amended.1 (fun _ => PhotoOutcome.transportError)
      ["public/images/p1.jpg"] (some "r") "p1" (by decide),
   claim8_amended.2.1 (fun _ => PhotoOutcome.transportError) [] "p2"
      (by decide),
   claim8_amended.2.2.1 (fun _ => PhotoOutcome.status 403) [] "r" "p3" 403
      (by decide) (by decide) rfl (by decide),
   claim8_amended.2.2.2 (fun _ => PhotoOutcome.transportError) [] "r" "p4"
      (by decide) (by decide) rfl⟩

/-- A bare search result with the given id and name, no photos, and
bare-result fields populated. -/
def itemN (pid nm : String) : RawResult :=
  { place_id := some pid
    name := some nm
    vicinity := some "1 Test St"
    photos := none
    geometry_lat := some 47
    geometry_lng := some (-122)
    types := some ["restaurant"]
    rating := some 4
    user_ratings_total := some 10
    price_level := none }

/-- A complete detail response carrying only a website. -/
def dWeb : Detail :=
  { Detail.empty with website := some "https://biz.example" }

/-- An empty search response. -/
def emptySearch : SearchResponse := { results := [], next_page_token := none }

/-- Environment with both required values set and no Yelp key. -/
def env6 : Env :=
  { google_key := some "gkey", yelp_key := none, db_url := some "db" }

/-- World for the target-truncation example: 2 results under restaurant and
3 under cafe, everything else empty. -/
def w6 : World :=
  { search := fun pt tok =>
      if pt = "restaurant" ∧ tok = none then
        { results := [itemN "p1" "B1", itemN "p2" "B2"],
          next_page_token := none }
      else if pt = "cafe" ∧ tok = none then
        { results := [itemN "p3" "B3", itemN "p4" "B4", itemN "p5" "B5"],
          next_page_token := none }
      else emptySearch
    detail := fun _ _ => Except.ok dWeb
    yelp := fun _ _ _ => none
    photo := fun _ => PhotoOutcome.status 200
    scrape := fun _ => none
    fs0 := [] }

/-- Environment for the pagination counterexample. -/
def env4 : Env :=
  { google_key := some "gkey", yelp_key := none, db_url := some "db" }

/-- World for the pagination counterexample: the restaurant search has a
next page (token "tok2") holding a further result "p2". -/
def w4 : World :=
  { search := fun pt tok =>
      if pt = "restaurant" ∧ tok = none then
        { results := [itemN "p1" "B1"], next_page_token := some "tok2" }
      else if pt = "restaurant" ∧ tok = some "tok2" then
        { results := [itemN "p2" "B2"], next_page_token := none }
      else emptySearch
    detail := fun _ _ => Except.ok dWeb
    yelp := fun _ _ _ => none
    photo := fun _ => PhotoOutcome.status 200
    scrape := fun _ => none
    fs0 := [] }

/-- Environment with the primary API key absent. -/
def env9 : Env :=
  { google_key := none, yelp_key := none, db_url := some "db" }

/-- World for the configuration counterexample: one restaurant result. -/
def w9 : World :=
  { search := fun pt tok =>
      if pt = "restaurant" ∧ tok = none then
        { results := [itemN "p1" "B1"], next_page_token := none }
      else emptySearch
    detail := fun _ _ => Except.ok dWeb
    yelp := fun _ _ _ => none
    photo := fun _ => PhotoOutcome.status 200
    scrape := fun _ => none
    fs0 := [] }

/-- World whose detail endpoint always raises, for the degrade example. -/
def w3 : World :=
  { search := fun pt tok =>
      if pt = "restaurant" ∧ tok = none then
        { results := [itemN "p9" "Bare Cafe"], next_page_token := none }
      else emptySearch
    detail := fun _ _ => Except.error ()
    yelp := fun _ _ _ => none
    photo := fun _ => PhotoOutcome.status 200
    scrape := fun _ => none
    fs0 := [] }

/-- The item processed in the claim-3 witness. -/
def item3 : RawResult := itemN "p9" "Bare Cafe"

/-- When the photo fetch never raises a transport error, download_photo
always succeeds. -/
theorem download_photo_ok (fetch : String → PhotoOutcome) (fs : List String)
    (ref : Option String) (pid : String)
    (h : ∀ r, fetch r ≠ PhotoOutcome.transportError) :
    ∃ res, download_photo fetch fs ref pid = Except.ok res := by
  by_cases h1 : ("public/images/" ++ pid ++ ".jpg") ∈ fs
  · exact ⟨("public/images/" ++ pid ++ ".jpg", fs, false),
      by simp [download_photo, h1]⟩
  · by_cases h2 : strTruthy ref = false
    · exact ⟨(placeholderPath,
        if placeholderPath ∈ fs then fs else placeholderPath :: fs, false),
        by simp [download_photo, h1, h2]⟩
    · cases hf : fetch (ref.getD "") with
      | status code =>
          by_cases hc : code = 200
          · exact ⟨("public/images/" ++ pid ++ ".jpg",
              ("public/images/" ++ pid ++ ".jpg") :: fs, true),
              by simp [download_photo, h1, h2, hf, hc]⟩
          · exact ⟨(placeholderPath, fs, true),
              by simp [download_photo, h1, h2, hf, hc]⟩
      | transportError => exact absurd hf (h _)

/-- C3: when every detail attempt fails or comes back empty (so the detail
degrades to the empty dict) and the photo fetch does not raise, the item is
still fully processed: the run does not abort, the counter increments, one
more business is persisted, and (absent any secondary match) the persisted
record is built from the bare search-result fields only, with the "N/A"
sentinels for contact fields. -/
theorem claim3_degrade_not_abort :
    ∀ (env : Env) (w : World) (target : Nat) (st : MainState)
      (item : RawResult),
      strTruthy item.place_id = true →
      strTruthy item.name = true →
      (item.place_id.getD "") ∉ st.seen →
      (∀ i, i < 3 →
        isFailedOutcome (w.detail (item.place_id.getD "") i) = true) →
      (∀ r, w.photo r ≠ PhotoOutcome.transportError) →
      ∃ st2,
        (processItem env w target st item = StepRes.next st2 ∨
         processItem env w target st item = StepRes.brk st2) ∧
        st2.total_inserted = st.total_inserted + 1 ∧
        st2.persisted.length = st.persisted.length + 1 ∧
        ((get_yelp_business env.yelp_key w.yelp (item.name.getD "")
            item.geometry_lat item.geometry_lng).1 = none →
          ∃ photo_path, st2.persisted = st.persisted ++
            [{ name := item.name.getD ""
               address := item.vicinity
               lat := item.geometry_lat
               lon := item.geometry_lng
               phone := "N/A"
               website := "N/A"
               place_id := item.place_id.getD ""
               category := categoryOf none item.types
               rating := item.rating
               rating_count := item.user_ratings_total
               opening_hours := none
               photo_path := photo_path
               description := none
               price_level := item.price_level
               maps_url := none
               yelp_id := none
               yelp_url := none
               price := none }]) := by
  intro env w target st item hp hn hseen hfail hphoto
  have hskip : ¬(strTruthy item.place_id = false ∨
      strTruthy item.name = false ∨ (item.place_id.getD "") ∈ st.seen) := by
    simp [hp, hn, hseen]
  have hdet : (place_details (w.detail (item.place_id.getD ""))).1 =
      Detail.empty := pd_empty_of_all_failed _ hfail
  obtain ⟨⟨pp, fs2, net⟩, hdl⟩ := download_photo_ok w.photo st.fs
    (photoRefOf (place_details (w.detail (item.place_id.getD ""))).1 item)
    (item.place_id.getD "") hphoto
  have hrun : processItem env w target st item =
      (if target ≤ (processedState env w st item pp fs2 net).total_inserted
       then StepRes.brk (processedState env w st item pp fs2 net)
       else StepRes.next (processedState env w st item pp fs2 net)) := by
    simp only [processItem, if_neg hskip]
    simp only [hdl]
  refine ⟨processedState env w st item pp fs2 net, ?_, rfl,
    by simp [processedState], ?_⟩
  · by_cases htar :
        target ≤ (processedState env w st item pp fs2 net).total_inserted
    · right
      rw [hrun, if_pos htar]
    · left
      rw [hrun, if_neg htar]
  · intro hy
    refine ⟨pp, ?_⟩
    simp only [processedState, hdet, hy]
    rfl

/-- Witness for claim 3: with a world whose detail endpoint always raises,
the item is still processed and the counter increments. -/
theorem claim3_degrade_not_abort_witness :
    ∃ st2,
      (processItem env6 w3 100 (initState []) item3 = StepRes.next st2 ∨
       processItem env6 w3 100 (initState []) item3 = StepRes.brk st2) ∧
      st2.total_inserted = 1 := by
  obtain ⟨st2, h1, h2, _⟩ := claim3_degrade_not_abort env6 w3 100
    (initState []) item3 rfl rfl (by simp [initState]) (fun i _ => rfl)
    (fun r hh => PhotoOutcome.noConfusion hh)
  exact ⟨st2, h1, h2⟩

/-- C4 counterexample: the claim says the orchestrator re-submits
nextPageToken until no more pages remain, but in the source main issues
exactly one search per category with no page token.  In this world the
restaurant search returns next_page_token "tok2" whose page holds a further
valid result "p2"; the run never issues a search with that token (every
issued token is none) and never processes "p2". -/
theorem claim4_counterexample :
    (w4.search "restaurant" none).next_page_token = some "tok2" ∧
    "p2" ∈ (w4.search "restaurant" (some "tok2")).results.filterMap
      (fun r => r.place_id) ∧
    searchTokens (runMain env4 w4 100).1.events = List.replicate 17 none ∧
    Event.searchCall (some "gkey") "restaurant" (some "tok2") ∉
      (runMain env4 w4 100).1.events ∧
    (runMain env4 w4 100).1.persisted.map (fun b => b.place_id) = ["p1"] :=
  ⟨rfl, by decide, by decide, by decide, by decide⟩

/-- C4 amended: within a category the orchestrator performs a single search
request and never re-submits a page token: every search call of any run
carries the token none (get_places accepts a pagetoken, but main never
supplies one, so only the first page of each category is processed). -/
theorem claim4_amended :
    ∀ (env : Env) (w : World) (target : Nat) (t : Option String),
      t ∈ searchTokens (runMain env w target).1.events → t = none := by
  intro env w target t ht
  exact runCats_tokens env w target PLACE_TYPES (initState w.fs0)
    (by simp [initState, searchTokens]) t ht

/-- Witness for claim 4 (amended): the token of the first search of a
concrete run is a member of the trace and is none. -/
theorem claim4_amended_witness :
    none ∈ searchTokens (runMain env4 w4 100).1.events ∧
    (none : Option String) = none :=
  ⟨by decide, claim4_amended env4 w4 100 none (by decide)⟩

/-- C5: within one run each externalPrimaryId is detail-fetched and
persisted at most once, and a result whose id is already in the seen set is
skipped with the state unchanged, before any provider call. -/
theorem claim5_dedup :
    (∀ (env : Env) (w : World) (target : Nat) (pid : String),
      (detailPids (runMain env w target).1.events).count pid ≤ 1 ∧
      (persistPids (runMain env w target).1.events).count pid ≤ 1) ∧
    (∀ (env : Env) (w : World) (target : Nat) (st : MainState)
       (item : RawResult),
      (item.place_id.getD "") ∈ st.seen →
      processItem env w target st item = StepRes.next st) := by
  constructor
  · intro env w target pid
    have h := runCats_dedupInv env w target PLACE_TYPES (initState w.fs0)
      ⟨by simp [initState, detailPids], by simp [initState, detailPids],
       by simp [initState, detailPids, persistPids]⟩
    obtain ⟨h1, h2, h3⟩ := h
    have hd := List.nodup_iff_count_le_one.1 h1 pid
    exact ⟨hd, le_trans (h3 pid) hd⟩
  · intro env w target st item h
    simp [processItem, h]

/-- Witness for claim 5: the dedup bounds at a concrete run, and a concrete
already-seen item is skipped with the state unchanged. -/
theorem claim5_dedup_witness :
    (detailPids (runMain env6 w6 3).1.events).count "p1" ≤ 1 ∧
    (persistPids (runMain env6 w6 3).1.events).count "p1" ≤ 1 ∧
    processItem env6 w6 3 { initState [] with seen := ["p1"] }
      (itemN "p1" "B1") = StepRes.next { initState [] with seen := ["p1"] } :=
  ⟨(claim5_dedup.1 env6 w6 3 "p1").1,
   (claim5_dedup.1 env6 w6 3 "p1").2,
   claim5_dedup.2 env6 w6 3 { initState [] with seen := ["p1"] }
     (itemN "p1" "B1") (by decide)⟩

/-- C6: the run persists at most the target record count of businesses; in
the concrete example with target 3 and 5 available records across the
restaurant and cafe categories, exactly 3 businesses are persisted and the
run stops before exhausting the second category ("p4" and "p5" are never
detail-fetched or persisted). -/
theorem claim6_target_truncation :
    (∀ (env : Env) (w : World) (target : Nat),
      (runMain env w target).1.persisted.length ≤ target) ∧
    ((runMain env6 w6 3).1.persisted.length = 3 ∧
     (runMain env6 w6 3).1.persisted.map (fun b => b.place_id) =
       ["p1", "p2", "p3"] ∧
     Event.detailCall "p4" ∉ (runMain env6 w6 3).1.events ∧
     Event.detailCall "p5" ∉ (runMain env6 w6 3).1.events ∧
     Event.persist "p4" ∉ (runMain env6 w6 3).1.events ∧
     Event.persist "p5" ∉ (runMain env6 w6 3).1.events) := by
  constructor
  · intro env w target
    have h := runCats_bound env w target PLACE_TYPES (initState w.fs0) rfl
      (Nat.zero_le _)
    obtain ⟨h1, h2⟩ := h
    rw [runMain]
    omega
  · exact ⟨by decide, by decide, by decide, by decide, by decide, by decide⟩

/-- C9 counterexample: the claim says the program fails fast, aborting
before any ingestion work, when the primary API key is absent; but with the
key unset the run still connects and issues the first provider search
(carrying the absent key) and even persists a business — there is no
configuration check in the source. -/
theorem claim9_counterexample :
    env9.google_key = none ∧
    (runMain env9 w9 100).1.events.head? =
      some (Event.searchCall none "restaurant" none) ∧
    (runMain env9 w9 100).1.persisted.length = 1 ∧
    (runMain env9 w9 100).2 = false :=
  ⟨rfl, rfl, rfl, rfl⟩

/-- The first category visited emits the first event of any run that has a
positive target: a search call carrying whatever key the environment holds,
with no page token. -/
theorem runCats_head (env : Env) (w : World) (target : Nat) (pt : String)
    (rest : List String) (st : MainState)
    (h : ¬ target ≤ st.total_inserted) :
    ∃ tl, (runCats env w target st (pt :: rest)).1.events =
      st.events ++ (Event.searchCall env.google_key pt none :: tl) := by
  simp only [runCats, if_neg h]
  obtain ⟨tl1, h1⟩ := processResults_events_prefix env w target
    (w.search pt none).results
    { st with events := st.events ++ [Event.searchCall env.google_key pt none] }
  cases hres : processResults env w target
      { st with
        events := st.events ++ [Event.searchCall env.google_key pt none] }
      (w.search pt none).results with
  | next st2 =>
      rw [hres] at h1
      simp only [StepRes.state] at h1
      by_cases h2t : target ≤ st2.total_inserted
      · refine ⟨tl1, ?_⟩
        simp only [hres, if_pos h2t]
        rw [h1]
        simp
      · obtain ⟨tl2, h2⟩ := runCats_events_prefix env w target rest st2
        refine ⟨tl1 ++ tl2, ?_⟩
        simp only [hres, if_neg h2t]
        rw [h2, h1]
        simp
  | brk st2 =>
      rw [hres] at h1
      simp only [StepRes.state] at h1
      refine ⟨tl1, ?_⟩
      simp only [hres]
      rw [h1]
      simp
  | abort st2 =>
      rw [hres] at h1
      simp only [StepRes.state] at h1
      refine ⟨tl1, ?_⟩
      simp only [hres]
      rw [h1]
      simp

/-- C9 amended: the source performs no fail-fast validation of its
configuration: the os.getenv results are used as-is and a run with a
positive target always begins with a provider search carrying whatever
(possibly absent) primary key the environment holds.  The secondary part of
the claim does hold: an absent Yelp key silently disables enrichment — the
lookup returns none without any network call. -/
theorem claim9_amended :
    (∀ (oracle : String → Option Rat → Option Rat → Option YelpBiz)
       (name : String) (lat lon : Option Rat),
      get_yelp_business none oracle name lat lon = (none, false)) ∧
    (∀ (env : Env) (w : World) (target : Nat), 1 ≤ target →
      (runMain env w target).1.events.head? =
        some (Event.searchCall env.google_key "restaurant" none)) := by
  constructor
  · intro oracle name lat lon
    rfl
  · intro env w target htar
    have h : ¬ target ≤ (initState w.fs0).total_inserted := by
      simp [initState]
      omega
    obtain ⟨tl, hev⟩ := runCats_head env w target "restaurant"
      PLACE_TYPES.tail (initState w.fs0) h
    rw [runMain]
    rw [show PLACE_TYPES = "restaurant" :: PLACE_TYPES.tail from rfl]
    rw [hev]
    simp [initState]

/-- Witness for claim 9 (amended): concrete absent-Yelp-key lookup and a
concrete run with an absent primary key whose first event is the search. -/
theorem claim9_amended_witness :
    get_yelp_business none (fun _ _ _ => none) "B1" none none =
      (none, false) ∧
    (runMain env9 w9 1).1.events.head? =
      some (Event.searchCall none "restaurant" none) :=
  ⟨claim9_amended.1 (fun _ _ _ => none) "B1" none none,
   claim9_amended.2 env9 w9 1 (by omega)⟩

/-- C10: a bare search result whose place_id or name is absent is skipped
entirely: the returned step is next with the state unchanged, so nothing is
added to seen, no provider call is made, nothing is persisted, and the
counter is unchanged. -/
theorem claim10_skip_invalid :
    ∀ (env : Env) (w : World) (target : Nat) (st : MainState)
      (item : RawResult),
      item.place_id = none ∨ item.name = none →
      processItem env w target st item = StepRes.next st := by
  intro env w target st item h
  rcases h with h | h <;> simp [processItem, h, strTruthy]

/-- The no-name item of the claim-10 witness. -/
def itemNoName : RawResult := { itemN "p1" "B1" with name := none }

/-- Witness for claim 10 at a concrete item with an absent name. -/
theorem claim10_skip_invalid_witness :
    processItem env6 w6 100 (initState []) itemNoName =
      StepRes.next (initState []) :=
  claim10_skip_invalid env6 w6 100 (initState []) itemNoName (Or.inr rfl)

end Ingestor
